import Mathlib

/-!
Verification of the declarative-annotation core (duvet, src/source.rs).

Rust strings are modelled as lists of characters (Str); machine-level
details such as UTF-8 byte layout are irrelevant to the code under
verification, which only splits, trims, compares and concatenates.
Every definition is translated from src/source.rs unless its doc
comment says it is modelled from the spec (for code of the repository
that lives outside the provided sources, e.g. the serde-derived
deserializers and the label parsers of annotation.rs / specification.rs).
-/

namespace Duvet

/-- Rust strings, modelled as lists of characters. -/
abbrev Str := List Char

/-- The predicate char::is_whitespace of Rust (Unicode White_Space),
used by str::trim in normalize_quote. -/
def ws (c : Char) : Bool :=
  c = ' ' || c = '\t' || c = '\n' || c = '\u000B' || c = '\u000C' || c = '\r' ||
  c = '\u0085' || c = '\u00A0' || c = '\u1680' ||
  ('\u2000' ≤ c && c ≤ '\u200A') ||
  c = '\u2028' || c = '\u2029' || c = '\u202F' || c = '\u205F' || c = '\u3000'

/-- str::trim_start: drop leading whitespace. -/
def trimLeft (s : Str) : Str := s.dropWhile ws

/-- str::trim_end: drop trailing whitespace. -/
def trimRight (s : Str) : Str := (s.reverse.dropWhile ws).reverse

/-- str::trim: drop leading and trailing whitespace. -/
def trim (s : Str) : Str := trimLeft (trimRight s)

/-- Split a string at every newline character, keeping all (possibly
empty) segments; an empty string yields one empty segment. -/
def splitOnNL : Str → List Str
  | [] => [[]]
  | c :: rest =>
    match splitOnNL rest with
    | [] => [[]]
    | p :: ps => if c = '\n' then [] :: p :: ps else (c :: p) :: ps

/-- Strip one trailing carriage return, as str::lines does per segment. -/
def stripCR (l : Str) : Str :=
  if l.getLast? = some '\r' then l.dropLast else l

/-- str::lines: split at newline characters; a final empty segment
(from a trailing newline, or from the empty string) is not produced;
each line has at most one trailing carriage return stripped. -/
def rustLines (s : Str) : List Str :=
  (if (splitOnNL s).getLast? = some [] then (splitOnNL s).dropLast
   else splitOnNL s).map stripCR

/-- The fold body of normalize_quote in src/source.rs: trim the line,
push a single space if both the trimmed line and the accumulator are
nonempty, then push the trimmed line. -/
def normStep (acc l : Str) : Str :=
  (if trim l ≠ [] ∧ acc ≠ [] then acc ++ [' '] else acc) ++ trim l

/-- normalize_quote from src/source.rs: fold normStep over the lines,
starting from the empty string. -/
def normalize_quote (s : Str) : Str :=
  (rustLines s).foldl normStep []

/-- Combining two already-normalized fragments: the nonempty one, or
both joined by a single space (the common shape of one normStep). -/
def combine (a b : Str) : Str :=
  if a = [] then b else if b = [] then a else a ++ ' ' :: b

/-- Joining a list of strings with exactly one space character between
consecutive elements (the spec's description of the join step). -/
def joinSpace : List Str → Str
  | [] => []
  | [l] => l
  | l :: ls => l ++ ' ' :: joinSpace ls

/-- The specification's description of quote normalization: split into
lines, trim each line, discard lines that are empty after trimming, and
join the remaining trimmed lines with exactly one space character. -/
def specNormalize (s : Str) : Str :=
  joinSpace (((rustLines s).map trim).filter (fun l => !l.isEmpty))

/-- The compliance-strength enumeration (AnnotationLevel in the source).
Modelled from the spec: annotation.rs is outside the provided sources;
the spec says levels form a small enumerated set of strength labels with
an Auto default. -/
inductive AnnotLevel
  | Auto
  | Must
  | Should
  | May
deriving DecidableEq

/-- The quote-interpretation enumeration (specification::Format in the
source). Modelled from the spec: specification.rs is outside the
provided sources; the spec says formats form a small enumerated set of
quote-interpretation labels with an Auto default. -/
inductive QuoteFormat
  | Auto
  | Ietf
deriving DecidableEq

/-- The three entry kinds (AnnotationType in the source); the variants
Spec, Exception and Todo are the ones used in src/source.rs. -/
inductive AnnotType
  | Spec
  | Exception
  | Todo
deriving DecidableEq

/-- The error cases the declarative path of src/source.rs can produce
(the source uses anyhow errors; only the case distinctions matter). -/
inductive Error
  | missingTarget
  | unknownLevel (label : Str)
  | unknownFormat (label : Str)
  | unknownField (key : Str)
  | missingField (key : Str)
  | typeMismatch (key : Str)
deriving DecidableEq

/-- The Annotation record of the source (annotation.rs), with exactly
the fields populated by the struct literals in src/source.rs. The tag
set of a Todo is kept as the list written in the declaration (the
BTreeSet structure of the source is irrelevant to the claims below). -/
structure Annot where
  anno_line : Nat
  anno_column : Nat
  item_line : Nat
  item_column : Nat
  path : Str
  anno : AnnotType
  target : Str
  quote : Str
  comment : Str
  manifest_dir : Str
  feature : Str
  tags : List Str
  tracking_issue : Str
  source : Str
  level : AnnotLevel
  format : QuoteFormat
deriving DecidableEq

/-- A citation entry (struct Spec in src/source.rs). -/
structure Spec where
  target : Option Str
  level : Option Str
  format : Option Str
  quote : Str
deriving DecidableEq

/-- An exception entry (struct Exception in src/source.rs). -/
structure Exception where
  target : Option Str
  quote : Str
  reason : Str
deriving DecidableEq

/-- A todo entry (struct Todo in src/source.rs). -/
structure Todo where
  target : Option Str
  quote : Str
  feature : Option Str
  tracking_issue : Option Str
  reason : Option Str
  tags : List Str
deriving DecidableEq

/-- A parsed declaration document (struct Specs in src/source.rs). -/
structure Specs where
  target : Option Str
  specs : List Spec
  exceptions : List Exception
  todos : List Todo
deriving DecidableEq

/-- AnnotationLevel::from_str. Modelled from the spec: parsing a
strength label from the small enumerated set; an unrecognized label is
a parse error. -/
def parseLevel (l : Str) : Except Error AnnotLevel :=
  if l = ("AUTO").toList then Except.ok AnnotLevel.Auto
  else if l = ("MUST").toList then Except.ok AnnotLevel.Must
  else if l = ("SHOULD").toList then Except.ok AnnotLevel.Should
  else if l = ("MAY").toList then Except.ok AnnotLevel.May
  else Except.error (Error.unknownLevel l)

/-- Format::from_str. Modelled from the spec: parsing a
quote-interpretation label from the small enumerated set; an
unrecognized label is a parse error. -/
def parseFormat (f : Str) : Except Error QuoteFormat :=
  if f = ("auto").toList then Except.ok QuoteFormat.Auto
  else if f = ("ietf").toList then Except.ok QuoteFormat.Ietf
  else Except.error (Error.unknownFormat f)

/-- Spec::into_annotation from src/source.rs: resolve the target from
the entry's own target or the document default (error "missing target"
when both are absent), parse level and format when present (Auto when
absent), normalize the quote, keep the raw quote as the comment, and
fill the remaining fields with the source path and empty defaults. -/
def Spec.toAnnot (self : Spec) (source : Str) (default_target : Option Str) :
    Except Error Annot :=
  match self.target.or default_target with
  | none => Except.error Error.missingTarget
  | some target =>
    match (match self.level with
           | some l => parseLevel l
           | none => Except.ok AnnotLevel.Auto) with
    | Except.error e => Except.error e
    | Except.ok level =>
      match (match self.format with
             | some f => parseFormat f
             | none => Except.ok QuoteFormat.Auto) with
      | Except.error e => Except.error e
      | Except.ok format =>
        Except.ok
          { anno_line := 0
            anno_column := 0
            item_line := 0
            item_column := 0
            path := []
            anno := AnnotType.Spec
            target := target
            quote := normalize_quote self.quote
            comment := self.quote
            manifest_dir := source
            feature := []
            tags := []
            tracking_issue := []
            source := source
            level := level
            format := format }

/-- Exception::into_annotation from src/source.rs. -/
def Exception.toAnnot (self : Exception) (source : Str)
    (default_target : Option Str) : Except Error Annot :=
  match self.target.or default_target with
  | none => Except.error Error.missingTarget
  | some target =>
    Except.ok
      { anno_line := 0
        anno_column := 0
        item_line := 0
        item_column := 0
        path := []
        anno := AnnotType.Exception
        target := target
        quote := normalize_quote self.quote
        comment := self.reason
        manifest_dir := source
        feature := []
        tags := []
        tracking_issue := []
        source := source
        level := AnnotLevel.Auto
        format := QuoteFormat.Auto }

/-- Todo::into_annotation from src/source.rs. -/
def Todo.toAnnot (self : Todo) (source : Str)
    (default_target : Option Str) : Except Error Annot :=
  match self.target.or default_target with
  | none => Except.error Error.missingTarget
  | some target =>
    Except.ok
      { anno_line := 0
        anno_column := 0
        item_line := 0
        item_column := 0
        path := []
        anno := AnnotType.Todo
        target := target
        quote := normalize_quote self.quote
        comment := self.reason.getD []
        manifest_dir := source
        source := source
        tags := self.tags
        feature := self.feature.getD []
        tracking_issue := self.tracking_issue.getD []
        level := AnnotLevel.Auto
        format := QuoteFormat.Auto }

/-- BTreeSet::insert on the annotation set: an exact repeat of an
already-present record is not added again. -/
def insertAnnot (set : List Annot) (a : Annot) : List Annot :=
  if a ∈ set then set else set ++ [a]

/-- One of the three for-loops of SourceFile::annotations: convert each
entry in turn, stopping at the first conversion error, inserting each
resulting record into the accumulated set. -/
def processEntries (conv : α → Except Error Annot) :
    List α → List Annot → Except Error (List Annot)
  | [], acc => Except.ok acc
  | x :: rest, acc =>
    match conv x with
    | Except.error e => Except.error e
    | Except.ok a => processEntries conv rest (insertAnnot acc a)

/-- The Self::Spec arm of SourceFile::annotations from src/source.rs,
after the document has been read and parsed: process the citation
entries, then the exception entries, then the todo entries, each against
the document-level default target, collecting into one set. -/
def specFileAnnots (file : Str) (specs : Specs) : Except Error (List Annot) :=
  match processEntries (fun s => Spec.toAnnot s file specs.target)
      specs.specs [] with
  | Except.error e => Except.error e
  | Except.ok acc =>
    match processEntries (fun x => Exception.toAnnot x file specs.target)
        specs.exceptions acc with
    | Except.error e => Except.error e
    | Except.ok acc =>
      processEntries (fun t => Todo.toAnnot t file specs.target)
        specs.todos acc

/-- Whether a result is an error (no value is produced). -/
def isErr : Except Error α → Bool
  | Except.error _ => true
  | Except.ok _ => false

/-- A parsed structured value of the declaration format (the fragment
the schemas of src/source.rs can mention): strings, arrays, tables. -/
inductive Toml
  | str (s : Str)
  | arr (vs : List Toml)
  | table (kvs : List (Str × Toml))

/-- The key names the document table accepts (field names and serde
aliases of struct Specs in src/source.rs). -/
def specsDocKeys : List Str :=
  [("target").toList, ("spec").toList, ("specs").toList,
   ("exception").toList, ("exceptions").toList,
   ("TODO").toList, ("todo").toList, ("todos").toList]

/-- The key names a citation entry accepts (struct Spec). -/
def specKeys : List Str :=
  [("target").toList, ("level").toList, ("format").toList, ("quote").toList]

/-- The key names an exception entry accepts (struct Exception). -/
def exceptionKeys : List Str :=
  [("target").toList, ("quote").toList, ("reason").toList]

/-- The key names a todo entry accepts (struct Todo, with the
tracking-issue alias). -/
def todoKeys : List Str :=
  [("target").toList, ("quote").toList, ("feature").toList,
   ("tracking-issue").toList, ("tracking_issue").toList,
   ("reason").toList, ("tags").toList]

/-- Modelled from the spec: the closed-schema check that
serde(deny_unknown_fields) performs on every table — any present key
outside the allowed list is a hard parse error. -/
def checkFields (allowed : List Str) : List (Str × Toml) → Except Error Unit
  | [] => Except.ok ()
  | (k, _) :: rest =>
    if k ∈ allowed then checkFields allowed rest
    else Except.error (Error.unknownField k)

/-- First value bound to a key in a table. -/
def lookupKey (kvs : List (Str × Toml)) (k : Str) : Option Toml :=
  match kvs.find? (fun p => p.1 = k) with
  | some p => some p.2
  | none => none

/-- First value bound to any of a list of alias keys. -/
def lookupFirst (kvs : List (Str × Toml)) : List Str → Option Toml
  | [] => none
  | k :: ks => (lookupKey kvs k).or (lookupFirst kvs ks)

/-- Modelled from the spec: an optional string field — absent is fine,
present must be a string. -/
def optStr (kvs : List (Str × Toml)) (k : Str) : Except Error (Option Str) :=
  match lookupKey kvs k with
  | none => Except.ok none
  | some (Toml.str s) => Except.ok (some s)
  | some _ => Except.error (Error.typeMismatch k)

/-- Modelled from the spec: a required string field — absent or
non-string is a parse error. -/
def reqStr (kvs : List (Str × Toml)) (k : Str) : Except Error Str :=
  match lookupKey kvs k with
  | none => Except.error (Error.missingField k)
  | some (Toml.str s) => Except.ok s
  | some _ => Except.error (Error.typeMismatch k)

/-- Modelled from the spec: an optional list-of-strings field (tags). -/
def optStrList (kvs : List (Str × Toml)) (k : Str) :
    Except Error (List Str) :=
  match lookupKey kvs k with
  | none => Except.ok []
  | some (Toml.arr vs) =>
    vs.foldr
      (fun v acc =>
        match v, acc with
        | Toml.str s, Except.ok ss => Except.ok (s :: ss)
        | _, Except.error e => Except.error e
        | _, _ => Except.error (Error.typeMismatch k))
      (Except.ok [])
  | some _ => Except.error (Error.typeMismatch k)

/-- Modelled from the spec: parse one citation entry against the closed
schema of struct Spec (deny_unknown_fields, then the typed fields). -/
def parseSpecEntry (kvs : List (Str × Toml)) : Except Error Spec :=
  match checkFields specKeys kvs with
  | Except.error e => Except.error e
  | Except.ok _ =>
    match optStr kvs (("target").toList) with
    | Except.error e => Except.error e
    | Except.ok target =>
      match optStr kvs (("level").toList) with
      | Except.error e => Except.error e
      | Except.ok level =>
        match optStr kvs (("format").toList) with
        | Except.error e => Except.error e
        | Except.ok format =>
          match reqStr kvs (("quote").toList) with
          | Except.error e => Except.error e
          | Except.ok quote =>
            Except.ok { target := target, level := level,
                        format := format, quote := quote }

/-- Modelled from the spec: parse one exception entry against the
closed schema of struct Exception. -/
def parseExceptionEntry (kvs : List (Str × Toml)) : Except Error Exception :=
  match checkFields exceptionKeys kvs with
  | Except.error e => Except.error e
  | Except.ok _ =>
    match optStr kvs (("target").toList) with
    | Except.error e => Except.error e
    | Except.ok target =>
      match reqStr kvs (("quote").toList) with
      | Except.error e => Except.error e
      | Except.ok quote =>
        match reqStr kvs (("reason").toList) with
        | Except.error e => Except.error e
        | Except.ok reason =>
          Except.ok { target := target, quote := quote, reason := reason }

/-- Modelled from the spec: parse one todo entry against the closed
schema of struct Todo (tracking-issue alias accepted). -/
def parseTodoEntry (kvs : List (Str × Toml)) : Except Error Todo :=
  match checkFields todoKeys kvs with
  | Except.error e => Except.error e
  | Except.ok _ =>
    match optStr kvs (("target").toList) with
    | Except.error e => Except.error e
    | Except.ok target =>
      match reqStr kvs (("quote").toList) with
      | Except.error e => Except.error e
      | Except.ok quote =>
        match optStr kvs (("feature").toList) with
        | Except.error e => Except.error e
        | Except.ok feature =>
          match (match lookupFirst kvs
                     [("tracking-issue").toList, ("tracking_issue").toList] with
                 | none => Except.ok none
                 | some (Toml.str s) => Except.ok (some s)
                 | some _ =>
                   Except.error (Error.typeMismatch (("tracking-issue").toList))) with
          | Except.error e => Except.error e
          | Except.ok tracking_issue =>
            match optStr kvs (("reason").toList) with
            | Except.error e => Except.error e
            | Except.ok reason =>
              match optStrList kvs (("tags").toList) with
              | Except.error e => Except.error e
              | Except.ok tags =>
                Except.ok { target := target, quote := quote,
                            feature := feature,
                            tracking_issue := tracking_issue,
                            reason := reason, tags := tags }

/-- A list of entry tables: every array element must be a table. -/
def asTables (k : Str) : Option Toml → Except Error (List (List (Str × Toml)))
  | none => Except.ok []
  | some (Toml.arr vs) =>
    vs.foldr
      (fun v acc =>
        match v, acc with
        | Toml.table t, Except.ok ts => Except.ok (t :: ts)
        | _, Except.error e => Except.error e
        | _, _ => Except.error (Error.typeMismatch k))
      (Except.ok [])
  | some _ => Except.error (Error.typeMismatch k)

/-- Parse every table of a list with the given entry parser, stopping
at the first error. -/
def parseAll (f : List (Str × Toml) → Except Error β) :
    List (List (Str × Toml)) → Except Error (List β)
  | [] => Except.ok []
  | t :: ts =>
    match f t with
    | Except.error e => Except.error e
    | Except.ok b =>
      match parseAll f ts with
      | Except.error e => Except.error e
      | Except.ok bs => Except.ok (b :: bs)

/-- Modelled from the spec: parse a whole declaration document against
the closed schema of struct Specs — deny_unknown_fields at the top
level, an optional target string, and the three entry lists under their
alias keys. -/
def parseSpecs (kvs : List (Str × Toml)) : Except Error Specs :=
  match checkFields specsDocKeys kvs with
  | Except.error e => Except.error e
  | Except.ok _ =>
    match optStr kvs (("target").toList) with
    | Except.error e => Except.error e
    | Except.ok target =>
      match asTables (("specs").toList)
          (lookupFirst kvs [("specs").toList, ("spec").toList]) with
      | Except.error e => Except.error e
      | Except.ok specTables =>
        match parseAll parseSpecEntry specTables with
        | Except.error e => Except.error e
        | Except.ok specs =>
          match asTables (("exceptions").toList)
              (lookupFirst kvs [("exceptions").toList, ("exception").toList]) with
          | Except.error e => Except.error e
          | Except.ok excTables =>
            match parseAll parseExceptionEntry excTables with
            | Except.error e => Except.error e
            | Except.ok exceptions =>
              match asTables (("todos").toList)
                  (lookupFirst kvs
                    [("todos").toList, ("TODO").toList, ("todo").toList]) with
              | Except.error e => Except.error e
              | Except.ok todoTables =>
                match parseAll parseTodoEntry todoTables with
                | Except.error e => Except.error e
                | Except.ok todos =>
                  Except.ok { target := target, specs := specs,
                              exceptions := exceptions, todos := todos }

/-- A sample declaration file path, for concrete instantiations. -/
def sampleFile : Str := ("f").toList

/-- A sample citation entry with no own target. -/
def sampleCitation : Spec :=
  { target := none, level := none, format := none, quote := ("q").toList }

/-- A sample exception entry with no own target. -/
def sampleException : Exception :=
  { target := none, quote := ("q").toList, reason := ("r").toList }

/-- A sample todo entry with no own target. -/
def sampleTodo : Todo :=
  { target := none, quote := ("q").toList, feature := none,
    tracking_issue := none, reason := none, tags := [] }

/-- A sample declaration document: default target "t", one citation. -/
def sampleSpecs : Specs :=
  { target := some (("t").toList), specs := [sampleCitation],
    exceptions := [], todos := [] }

/-- The record produced from sampleSpecs. -/
def sampleAnnot : Annot :=
  { anno_line := 0, anno_column := 0, item_line := 0, item_column := 0,
    path := [], anno := AnnotType.Spec, target := ("t").toList,
    quote := ("q").toList, comment := ("q").toList,
    manifest_dir := sampleFile, feature := [], tags := [],
    tracking_issue := [], source := sampleFile,
    level := AnnotLevel.Auto, format := QuoteFormat.Auto }

/-- A document whose only entry has no target anywhere (for the
fail-fast behaviour). -/
def badDoc : Specs :=
  { target := none, specs := [], exceptions := [sampleException], todos := [] }

/-- A citation entry whose own target is explicitly the empty string. -/
def emptyTargetCitation : Spec :=
  { target := some [], level := none, format := none, quote := ("q").toList }

/-- A citation entry whose quote is the empty string. -/
def emptyQuoteCitation : Spec :=
  { target := some (("t").toList), level := none, format := none, quote := [] }

/-- A table carrying a single unrecognized key. -/
def bogusTable : List (Str × Toml) :=
  [((("bogus").toList : Str), Toml.str [])]

/-- A citation entry with its own target "x". -/
def ownTargetCitation : Spec :=
  { target := some (("x").toList), level := none, format := none,
    quote := ("q").toList }

/-- The record produced from ownTargetCitation (own target wins). -/
def ownTargetAnnot : Annot :=
  { anno_line := 0, anno_column := 0, item_line := 0, item_column := 0,
    path := [], anno := AnnotType.Spec, target := ("x").toList,
    quote := ("q").toList, comment := ("q").toList,
    manifest_dir := sampleFile, feature := [], tags := [],
    tracking_issue := [], source := sampleFile,
    level := AnnotLevel.Auto, format := QuoteFormat.Auto }

/-- The record produced from sampleException under default target "t". -/
def sampleExcAnnot : Annot :=
  { anno_line := 0, anno_column := 0, item_line := 0, item_column := 0,
    path := [], anno := AnnotType.Exception, target := ("t").toList,
    quote := ("q").toList, comment := ("r").toList,
    manifest_dir := sampleFile, feature := [], tags := [],
    tracking_issue := [], source := sampleFile,
    level := AnnotLevel.Auto, format := QuoteFormat.Auto }

/-- The record produced from sampleTodo under default target "t". -/
def sampleTodoAnnot : Annot :=
  { anno_line := 0, anno_column := 0, item_line := 0, item_column := 0,
    path := [], anno := AnnotType.Todo, target := ("t").toList,
    quote := ("q").toList, comment := [],
    manifest_dir := sampleFile, feature := [], tags := [],
    tracking_issue := [], source := sampleFile,
    level := AnnotLevel.Auto, format := QuoteFormat.Auto }

/-- The record produced from emptyTargetCitation: its target is the
empty string. -/
def emptyTargetAnnot : Annot :=
  { anno_line := 0, anno_column := 0, item_line := 0, item_column := 0,
    path := [], anno := AnnotType.Spec, target := [],
    quote := ("q").toList, comment := ("q").toList,
    manifest_dir := sampleFile, feature := [], tags := [],
    tracking_issue := [], source := sampleFile,
    level := AnnotLevel.Auto, format := QuoteFormat.Auto }

/-- The record produced from emptyQuoteCitation: its quote is the
empty string. -/
def emptyQuoteAnnot : Annot :=
  { anno_line := 0, anno_column := 0, item_line := 0, item_column := 0,
    path := [], anno := AnnotType.Spec, target := ("t").toList,
    quote := [], comment := [],
    manifest_dir := sampleFile, feature := [], tags := [],
    tracking_issue := [], source := sampleFile,
    level := AnnotLevel.Auto, format := QuoteFormat.Auto }

/-- Inversion of a successful citation conversion: every field of the
produced record, read off the struct literal of Spec::into_annotation. -/
theorem spec_toAnnot_ok {s : Spec} {src : Str} {dt : Option Str} {a : Annot}
    (h : Spec.toAnnot s src dt = Except.ok a) :
    (∃ t, s.target.or dt = some t ∧ a.target = t) ∧
    a.quote = normalize_quote s.quote ∧ a.comment = s.quote ∧
    a.manifest_dir = src ∧ a.source = src ∧
    a.feature = [] ∧ a.tags = [] ∧ a.tracking_issue = [] ∧
    a.anno_line = 0 ∧ a.anno_column = 0 ∧ a.item_line = 0 ∧
    a.item_column = 0 ∧ a.path = [] ∧ a.anno = AnnotType.Spec ∧
    (s.level = none → a.level = AnnotLevel.Auto) ∧
    (s.format = none → a.format = QuoteFormat.Auto) := by
  unfold Spec.toAnnot at h
  split at h
  · cases h
  next t htg =>
    split at h
    · cases h
    next lv hlv =>
      split at h
      · cases h
      next fm hfm =>
        injection h with h
        subst h
        refine ⟨⟨t, htg, rfl⟩, rfl, rfl, rfl, rfl, rfl, rfl, rfl, rfl, rfl,
          rfl, rfl, rfl, rfl, ?_, ?_⟩
        · intro hnone
          rw [hnone] at hlv
          injection hlv with hlv
          exact hlv.symm
        · intro hnone
          rw [hnone] at hfm
          injection hfm with hfm
          exact hfm.symm

/-- A citation conversion with no resolvable target fails with the
missing-target error. -/
theorem spec_toAnnot_none {s : Spec} {src : Str} {dt : Option Str}
    (h : s.target.or dt = none) :
    Spec.toAnnot s src dt = Except.error Error.missingTarget := by
  unfold Spec.toAnnot
  rw [h]

/-- Inversion of a successful exception conversion. -/
theorem exception_toAnnot_ok {x : Exception} {src : Str} {dt : Option Str}
    {a : Annot} (h : Exception.toAnnot x src dt = Except.ok a) :
    (∃ t, x.target.or dt = some t ∧ a.target = t) ∧
    a.quote = normalize_quote x.quote ∧ a.comment = x.reason ∧
    a.manifest_dir = src ∧ a.source = src ∧ a.feature = [] ∧
    a.tags = [] ∧ a.tracking_issue = [] ∧ a.anno_line = 0 ∧
    a.anno_column = 0 ∧ a.item_line = 0 ∧ a.item_column = 0 ∧
    a.path = [] ∧ a.anno = AnnotType.Exception ∧
    a.level = AnnotLevel.Auto ∧ a.format = QuoteFormat.Auto := by
  unfold Exception.toAnnot at h
  split at h
  · cases h
  next t htg =>
    injection h with h
    subst h
    exact ⟨⟨t, htg, rfl⟩, rfl, rfl, rfl, rfl, rfl, rfl, rfl, rfl, rfl, rfl,
      rfl, rfl, rfl, rfl, rfl⟩

/-- An exception conversion with no resolvable target fails with the
missing-target error. -/
theorem exception_toAnnot_none {x : Exception} {src : Str} {dt : Option Str}
    (h : x.target.or dt = none) :
    Exception.toAnnot x src dt = Except.error Error.missingTarget := by
  unfold Exception.toAnnot
  rw [h]

/-- Inversion of a successful todo conversion. -/
theorem todo_toAnnot_ok {t : Todo} {src : Str} {dt : Option Str} {a : Annot}
    (h : Todo.toAnnot t src dt = Except.ok a) :
    (∃ tg, t.target.or dt = some tg ∧ a.target = tg) ∧
    a.quote = normalize_quote t.quote ∧ a.comment = t.reason.getD [] ∧
    a.manifest_dir = src ∧ a.source = src ∧
    a.feature = t.feature.getD [] ∧ a.tags = t.tags ∧
    a.tracking_issue = t.tracking_issue.getD [] ∧ a.anno_line = 0 ∧
    a.anno_column = 0 ∧ a.item_line = 0 ∧ a.item_column = 0 ∧
    a.path = [] ∧ a.anno = AnnotType.Todo ∧
    a.level = AnnotLevel.Auto ∧ a.format = QuoteFormat.Auto := by
  unfold Todo.toAnnot at h
  split at h
  · cases h
  next tg htg =>
    injection h with h
    subst h
    exact ⟨⟨tg, htg, rfl⟩, rfl, rfl, rfl, rfl, rfl, rfl, rfl, rfl, rfl, rfl,
      rfl, rfl, rfl, rfl, rfl⟩

/-- A todo conversion with no resolvable target fails with the
missing-target error. -/
theorem todo_toAnnot_none {t : Todo} {src : Str} {dt : Option Str}
    (h : t.target.or dt = none) :
    Todo.toAnnot t src dt = Except.error Error.missingTarget := by
  unfold Todo.toAnnot
  rw [h]

/-- C2: for every entry of any of the three kinds, the target is
resolved independently per entry — the entry's own target wins if
present, else the document default, and when both are absent the
conversion fails with the missing-target error and no record is
produced. -/
theorem target_resolution_per_entry (file : Str) (dt : Option Str)
    (s : Spec) (x : Exception) (t : Todo) :
    (∀ tv, s.target = some tv →
      ∀ a, Spec.toAnnot s file dt = Except.ok a → a.target = tv) ∧
    (s.target = none → ∀ d, dt = some d →
      ∀ a, Spec.toAnnot s file dt = Except.ok a → a.target = d) ∧
    (s.target = none → dt = none →
      Spec.toAnnot s file dt = Except.error Error.missingTarget) ∧
    (∀ tv, x.target = some tv →
      ∀ a, Exception.toAnnot x file dt = Except.ok a → a.target = tv) ∧
    (x.target = none → ∀ d, dt = some d →
      ∀ a, Exception.toAnnot x file dt = Except.ok a → a.target = d) ∧
    (x.target = none → dt = none →
      Exception.toAnnot x file dt = Except.error Error.missingTarget) ∧
    (∀ tv, t.target = some tv →
      ∀ a, Todo.toAnnot t file dt = Except.ok a → a.target = tv) ∧
    (t.target = none → ∀ d, dt = some d →
      ∀ a, Todo.toAnnot t file dt = Except.ok a → a.target = d) ∧
    (t.target = none → dt = none →
      Todo.toAnnot t file dt = Except.error Error.missingTarget) := by
  refine ⟨?_, ?_, ?_, ?_, ?_, ?_, ?_, ?_, ?_⟩
  · intro tv htv a h
    obtain ⟨⟨u, hu, hau⟩, _⟩ := spec_toAnnot_ok h
    rw [htv, Option.or_some] at hu
    injection hu with hu
    rw [hau, hu]
  · intro hn d hd a h
    obtain ⟨⟨u, hu, hau⟩, _⟩ := spec_toAnnot_ok h
    rw [hn, Option.none_or, hd] at hu
    injection hu with hu
    rw [hau, hu]
  · intro hn hd
    exact spec_toAnnot_none (by rw [hn, hd]; rfl)
  · intro tv htv a h
    obtain ⟨⟨u, hu, hau⟩, _⟩ := exception_toAnnot_ok h
    rw [htv, Option.or_some] at hu
    injection hu with hu
    rw [hau, hu]
  · intro hn d hd a h
    obtain ⟨⟨u, hu, hau⟩, _⟩ := exception_toAnnot_ok h
    rw [hn, Option.none_or, hd] at hu
    injection hu with hu
    rw [hau, hu]
  · intro hn hd
    exact exception_toAnnot_none (by rw [hn, hd]; rfl)
  · intro tv htv a h
    obtain ⟨⟨u, hu, hau⟩, _⟩ := todo_toAnnot_ok h
    rw [htv, Option.or_some] at hu
    injection hu with hu
    rw [hau, hu]
  · intro hn d hd a h
    obtain ⟨⟨u, hu, hau⟩, _⟩ := todo_toAnnot_ok h
    rw [hn, Option.none_or, hd] at hu
    injection hu with hu
    rw [hau, hu]
  · intro hn hd
    exact todo_toAnnot_none (by rw [hn, hd]; rfl)

/-- Witness for C2: an own target overrides the document default, a
missing own target inherits the default, and entries with no target at
all fail, for all three kinds, at concrete inputs. -/
theorem target_resolution_per_entry_witness :
    ownTargetAnnot.target = ("x").toList ∧
    sampleAnnot.target = ("t").toList ∧
    Spec.toAnnot sampleCitation sampleFile none
      = Except.error Error.missingTarget ∧
    Exception.toAnnot sampleException sampleFile none
      = Except.error Error.missingTarget ∧
    Todo.toAnnot sampleTodo sampleFile none
      = Except.error Error.missingTarget :=
  ⟨(target_resolution_per_entry sampleFile (some (("t").toList))
      ownTargetCitation sampleException sampleTodo).1 (("x").toList) rfl
      ownTargetAnnot rfl,
   (target_resolution_per_entry sampleFile (some (("t").toList))
      sampleCitation sampleException sampleTodo).2.1 rfl (("t").toList) rfl
      sampleAnnot rfl,
   (target_resolution_per_entry sampleFile none
      sampleCitation sampleException sampleTodo).2.2.1 rfl rfl,
   (target_resolution_per_entry sampleFile none
      sampleCitation sampleException sampleTodo).2.2.2.2.2.1 rfl rfl,
   (target_resolution_per_entry sampleFile none
      sampleCitation sampleException sampleTodo).2.2.2.2.2.2.2.2 rfl rfl⟩

/-- C3: kind-specific fields of a successful conversion — a citation's
comment is the raw unnormalized quote while its quote is normalized and
its feature, tracking_issue and tags stay the empty defaults, with
absent level or format giving Auto; an exception's comment is its reason
verbatim; a todo's comment is its reason or the empty string. -/
theorem kind_specific_fields (file : Str) (dt : Option Str)
    (s : Spec) (x : Exception) (t : Todo) (a : Annot) :
    (Spec.toAnnot s file dt = Except.ok a →
      a.comment = s.quote ∧ a.quote = normalize_quote s.quote ∧
      a.feature = [] ∧ a.tracking_issue = [] ∧ a.tags = [] ∧
      (s.level = none → a.level = AnnotLevel.Auto) ∧
      (s.format = none → a.format = QuoteFormat.Auto)) ∧
    (Exception.toAnnot x file dt = Except.ok a → a.comment = x.reason) ∧
    (Todo.toAnnot t file dt = Except.ok a → a.comment = t.reason.getD []) := by
  refine ⟨?_, ?_, ?_⟩
  · intro h
    obtain ⟨_, hq, hc, _, _, hf, htags, hti, _, _, _, _, _, _, hl, hfm⟩ :=
      spec_toAnnot_ok h
    exact ⟨hc, hq, hf, hti, htags, hl, hfm⟩
  · intro h
    obtain ⟨_, _, hc, _⟩ := exception_toAnnot_ok h
    exact hc
  · intro h
    obtain ⟨_, _, hc, _⟩ := todo_toAnnot_ok h
    exact hc

/-- Witness for C3 at concrete entries of all three kinds. -/
theorem kind_specific_fields_witness :
    (sampleAnnot.comment = sampleCitation.quote ∧
     sampleAnnot.quote = normalize_quote sampleCitation.quote ∧
     sampleAnnot.feature = [] ∧ sampleAnnot.tracking_issue = [] ∧
     sampleAnnot.tags = [] ∧
     (sampleCitation.level = none → sampleAnnot.level = AnnotLevel.Auto) ∧
     (sampleCitation.format = none → sampleAnnot.format = QuoteFormat.Auto)) ∧
    sampleExcAnnot.comment = sampleException.reason ∧
    sampleTodoAnnot.comment = sampleTodo.reason.getD [] :=
  ⟨(kind_specific_fields sampleFile (some (("t").toList))
      sampleCitation sampleException sampleTodo sampleAnnot).1 rfl,
   (kind_specific_fields sampleFile (some (("t").toList))
      sampleCitation sampleException sampleTodo sampleExcAnnot).2.1 rfl,
   (kind_specific_fields sampleFile (some (("t").toList))
      sampleCitation sampleException sampleTodo sampleTodoAnnot).2.2 rfl⟩

/-- C10: every record produced from an exception or todo entry carries
level Auto and format Auto unconditionally. -/
theorem exception_todo_auto_level_format (file : Str) (dt : Option Str)
    (x : Exception) (t : Todo) (a : Annot) :
    (Exception.toAnnot x file dt = Except.ok a →
      a.level = AnnotLevel.Auto ∧ a.format = QuoteFormat.Auto) ∧
    (Todo.toAnnot t file dt = Except.ok a →
      a.level = AnnotLevel.Auto ∧ a.format = QuoteFormat.Auto) := by
  refine ⟨?_, ?_⟩
  · intro h
    obtain ⟨_, _, _, _, _, _, _, _, _, _, _, _, _, _, hl, hf⟩ :=
      exception_toAnnot_ok h
    exact ⟨hl, hf⟩
  · intro h
    obtain ⟨_, _, _, _, _, _, _, _, _, _, _, _, _, _, hl, hf⟩ :=
      todo_toAnnot_ok h
    exact ⟨hl, hf⟩

/-- Witness for C10 at concrete exception and todo entries. -/
theorem exception_todo_auto_level_format_witness :
    (sampleExcAnnot.level = AnnotLevel.Auto ∧
     sampleExcAnnot.format = QuoteFormat.Auto) ∧
    (sampleTodoAnnot.level = AnnotLevel.Auto ∧
     sampleTodoAnnot.format = QuoteFormat.Auto) :=
  ⟨(exception_todo_auto_level_format sampleFile (some (("t").toList))
      sampleException sampleTodo sampleExcAnnot).1 rfl,
   (exception_todo_auto_level_format sampleFile (some (("t").toList))
      sampleException sampleTodo sampleTodoAnnot).2 rfl⟩

/-- C4 counterexample: a citation entry whose own target is the empty
string converts successfully, and the resulting record's target is
empty — construction does not fail on an empty resolved target. -/
theorem target_nonempty_refuted :
    Spec.toAnnot emptyTargetCitation sampleFile none
      = Except.ok emptyTargetAnnot ∧
    emptyTargetAnnot.target = [] :=
  ⟨rfl, rfl⟩

/-- C4 amended: what the target check validates is presence, not
non-emptiness — on success the resolved target option (the entry's own
target, else the document default) was present and the record's target
equals its value verbatim, so the target can be empty only when an
empty target string was explicitly supplied; and whenever no target is
available at all, conversion fails. (Other failures, such as an
unrecognized level label, can still occur with a target present.) -/
theorem target_present_on_success (file : Str) (dt : Option Str)
    (s : Spec) (x : Exception) (t : Todo) (a : Annot) :
    (Spec.toAnnot s file dt = Except.ok a →
      s.target.or dt = some a.target) ∧
    (Exception.toAnnot x file dt = Except.ok a →
      x.target.or dt = some a.target) ∧
    (Todo.toAnnot t file dt = Except.ok a →
      t.target.or dt = some a.target) ∧
    (s.target.or dt = none → isErr (Spec.toAnnot s file dt) = true) ∧
    (x.target.or dt = none → isErr (Exception.toAnnot x file dt) = true) ∧
    (t.target.or dt = none → isErr (Todo.toAnnot t file dt) = true) := by
  refine ⟨?_, ?_, ?_, ?_, ?_, ?_⟩
  · intro h
    obtain ⟨⟨u, hu, hau⟩, _⟩ := spec_toAnnot_ok h
    rw [hau]
    exact hu
  · intro h
    obtain ⟨⟨u, hu, hau⟩, _⟩ := exception_toAnnot_ok h
    rw [hau]
    exact hu
  · intro h
    obtain ⟨⟨u, hu, hau⟩, _⟩ := todo_toAnnot_ok h
    rw [hau]
    exact hu
  · intro h
    rw [spec_toAnnot_none h]
    rfl
  · intro h
    rw [exception_toAnnot_none h]
    rfl
  · intro h
    rw [todo_toAnnot_none h]
    rfl

/-- Witness for the amended C4 at concrete entries. -/
theorem target_present_on_success_witness :
    Option.or sampleCitation.target (some (("t").toList))
      = some sampleAnnot.target ∧
    Option.or sampleException.target (some (("t").toList))
      = some sampleExcAnnot.target ∧
    Option.or sampleTodo.target (some (("t").toList))
      = some sampleTodoAnnot.target ∧
    isErr (Spec.toAnnot sampleCitation sampleFile none) = true ∧
    isErr (Exception.toAnnot sampleException sampleFile none) = true ∧
    isErr (Todo.toAnnot sampleTodo sampleFile none) = true :=
  ⟨(target_present_on_success sampleFile (some (("t").toList))
      sampleCitation sampleException sampleTodo sampleAnnot).1 rfl,
   (target_present_on_success sampleFile (some (("t").toList))
      sampleCitation sampleException sampleTodo sampleExcAnnot).2.1 rfl,
   (target_present_on_success sampleFile (some (("t").toList))
      sampleCitation sampleException sampleTodo sampleTodoAnnot).2.2.1 rfl,
   (target_present_on_success sampleFile none
      sampleCitation sampleException sampleTodo sampleAnnot).2.2.2.1 rfl,
   (target_present_on_success sampleFile none
      sampleCitation sampleException sampleTodo sampleAnnot).2.2.2.2.1 rfl,
   (target_present_on_success sampleFile none
      sampleCitation sampleException sampleTodo sampleAnnot).2.2.2.2.2 rfl⟩

/-- C5 counterexample: a citation entry whose quote is the empty string
converts successfully, and the resulting record's quote is empty — no
non-emptiness check is performed for citations (nor exceptions). -/
theorem quote_nonempty_refuted :
    Spec.toAnnot emptyQuoteCitation sampleFile none
      = Except.ok emptyQuoteAnnot ∧
    emptyQuoteAnnot.quote = [] :=
  ⟨rfl, rfl⟩

/-- C5 amended: for citation and exception entries that convert
successfully the quote field is exactly the normalized form of the
entry's quote — it is empty precisely when the entry's quote normalizes
to the empty string; no kind enforces non-emptiness. -/
theorem quote_normalized_on_success (file : Str) (dt : Option Str)
    (s : Spec) (x : Exception) (a : Annot) :
    (Spec.toAnnot s file dt = Except.ok a →
      (a.quote = normalize_quote s.quote ∧
        (a.quote = [] ↔ normalize_quote s.quote = []))) ∧
    (Exception.toAnnot x file dt = Except.ok a →
      (a.quote = normalize_quote x.quote ∧
        (a.quote = [] ↔ normalize_quote x.quote = []))) := by
  refine ⟨?_, ?_⟩
  · intro h
    obtain ⟨_, hq, _⟩ := spec_toAnnot_ok h
    exact ⟨hq, by rw [hq]⟩
  · intro h
    obtain ⟨_, hq, _⟩ := exception_toAnnot_ok h
    exact ⟨hq, by rw [hq]⟩

/-- Witness for the amended C5 at concrete entries. -/
theorem quote_normalized_on_success_witness :
    (sampleAnnot.quote = normalize_quote sampleCitation.quote ∧
      (sampleAnnot.quote = [] ↔ normalize_quote sampleCitation.quote = [])) ∧
    (sampleExcAnnot.quote = normalize_quote sampleException.quote ∧
      (sampleExcAnnot.quote = [] ↔ normalize_quote sampleException.quote = [])) :=
  ⟨(quote_normalized_on_success sampleFile (some (("t").toList))
      sampleCitation sampleException sampleAnnot).1 rfl,
   (quote_normalized_on_success sampleFile (some (("t").toList))
      sampleCitation sampleException sampleExcAnnot).2 rfl⟩

/-- Membership after a set insertion: the member was already present or
is the inserted record. -/
theorem mem_insertAnnot {acc : List Annot} {b a : Annot}
    (h : a ∈ insertAnnot acc b) : a ∈ acc ∨ a = b := by
  unfold insertAnnot at h
  split at h
  · exact Or.inl h
  · rcases List.mem_append.mp h with h1 | h2
    · exact Or.inl h1
    · exact Or.inr (List.mem_singleton.mp h2)

/-- If any entry of a list fails to convert, the entry loop fails,
whatever has been accumulated so far. -/
theorem processEntries_err {α : Type} {conv : α → Except Error Annot}
    {xs : List α} (h : ∃ x ∈ xs, isErr (conv x) = true)
    (acc : List Annot) : isErr (processEntries conv xs acc) = true := by
  induction xs generalizing acc with
  | nil =>
    obtain ⟨x, hx, _⟩ := h
    cases hx
  | cons y ys ih =>
    obtain ⟨x, hx, hex⟩ := h
    unfold processEntries
    cases hc : conv y with
    | error e => rfl
    | ok a =>
      rcases List.mem_cons.mp hx with heq | hmem
      · subst heq
        rw [hc] at hex
        exact Bool.noConfusion hex
      · exact ih ⟨x, hmem, hex⟩ _

/-- Every member of a successful entry loop's result was in the initial
accumulator or was produced by converting one of the entries. -/
theorem processEntries_mem {α : Type} {conv : α → Except Error Annot}
    {xs : List α} {acc res : List Annot}
    (h : processEntries conv xs acc = Except.ok res) :
    ∀ a ∈ res, a ∈ acc ∨ ∃ x ∈ xs, conv x = Except.ok a := by
  induction xs generalizing acc with
  | nil =>
    unfold processEntries at h
    injection h with h
    subst h
    intro a ha
    exact Or.inl ha
  | cons y ys ih =>
    unfold processEntries at h
    cases hc : conv y with
    | error e =>
      rw [hc] at h
      cases h
    | ok b =>
      rw [hc] at h
      intro a ha
      rcases ih h a ha with hacc | ⟨x, hx, hcx⟩
      · rcases mem_insertAnnot hacc with h1 | h2
        · exact Or.inl h1
        · exact Or.inr ⟨y, List.mem_cons_self y ys, by rw [h2]; exact hc⟩
      · exact Or.inr ⟨x, List.mem_cons_of_mem y hx, hcx⟩

/-- If the citation loop fails, the whole file's processing fails with
the same error. -/
theorem specFileAnnots_error1 {file : Str} {specs : Specs} {e : Error}
    (h : processEntries (fun s => Spec.toAnnot s file specs.target)
           specs.specs [] = Except.error e) :
    specFileAnnots file specs = Except.error e := by
  unfold specFileAnnots
  rw [h]

/-- If the citation loop succeeds and the exception loop fails, the
whole file's processing fails with the exception loop's error. -/
theorem specFileAnnots_error2 {file : Str} {specs : Specs}
    {acc : List Annot} {e : Error}
    (h1 : processEntries (fun s => Spec.toAnnot s file specs.target)
            specs.specs [] = Except.ok acc)
    (h2 : processEntries (fun x => Exception.toAnnot x file specs.target)
            specs.exceptions acc = Except.error e) :
    specFileAnnots file specs = Except.error e := by
  unfold specFileAnnots
  rw [h1]
  show (match processEntries (fun x => Exception.toAnnot x file specs.target)
          specs.exceptions acc with
        | Except.error e => Except.error e
        | Except.ok acc =>
          processEntries (fun t => Todo.toAnnot t file specs.target)
            specs.todos acc) = Except.error e
  rw [h2]

/-- When the first two loops succeed, the whole file's processing is
exactly the todo loop run on their accumulated set. -/
theorem specFileAnnots_step {file : Str} {specs : Specs}
    {acc acc2 : List Annot}
    (h1 : processEntries (fun s => Spec.toAnnot s file specs.target)
            specs.specs [] = Except.ok acc)
    (h2 : processEntries (fun x => Exception.toAnnot x file specs.target)
            specs.exceptions acc = Except.ok acc2) :
    specFileAnnots file specs =
      processEntries (fun t => Todo.toAnnot t file specs.target)
        specs.todos acc2 := by
  unfold specFileAnnots
  rw [h1]
  show (match processEntries (fun x => Exception.toAnnot x file specs.target)
          specs.exceptions acc with
        | Except.error e => Except.error e
        | Except.ok acc =>
          processEntries (fun t => Todo.toAnnot t file specs.target)
            specs.todos acc) = _
  rw [h2]

/-- C6: processing a declarative source unit is all-or-nothing — if any
entry in the document fails conversion, the whole file's processing
returns an error and no partial annotation set is produced. -/
theorem spec_file_fail_fast (file : Str) (specs : Specs)
    (h : (∃ s ∈ specs.specs,
            isErr (Spec.toAnnot s file specs.target) = true) ∨
         (∃ x ∈ specs.exceptions,
            isErr (Exception.toAnnot x file specs.target) = true) ∨
         (∃ t ∈ specs.todos,
            isErr (Todo.toAnnot t file specs.target) = true)) :
    isErr (specFileAnnots file specs) = true := by
  rcases h with h | h | h
  · cases hc : processEntries (fun s => Spec.toAnnot s file specs.target)
        specs.specs [] with
    | error e => rw [specFileAnnots_error1 hc]; rfl
    | ok acc =>
      have hh := processEntries_err h ([] : List Annot)
      rw [hc] at hh
      exact Bool.noConfusion hh
  · cases hc : processEntries (fun s => Spec.toAnnot s file specs.target)
        specs.specs [] with
    | error e => rw [specFileAnnots_error1 hc]; rfl
    | ok acc =>
      cases hc2 : processEntries
          (fun x => Exception.toAnnot x file specs.target)
          specs.exceptions acc with
      | error e => rw [specFileAnnots_error2 hc hc2]; rfl
      | ok acc2 =>
        have hh := processEntries_err h acc
        rw [hc2] at hh
        exact Bool.noConfusion hh
  · cases hc : processEntries (fun s => Spec.toAnnot s file specs.target)
        specs.specs [] with
    | error e => rw [specFileAnnots_error1 hc]; rfl
    | ok acc =>
      cases hc2 : processEntries
          (fun x => Exception.toAnnot x file specs.target)
          specs.exceptions acc with
      | error e => rw [specFileAnnots_error2 hc hc2]; rfl
      | ok acc2 =>
        rw [specFileAnnots_step hc hc2]
        exact processEntries_err h acc2

/-- Witness for C6: a document whose single exception entry has no
target (and no document default) makes the whole file's processing
fail. -/
theorem spec_file_fail_fast_witness :
    isErr (specFileAnnots sampleFile badDoc) = true :=
  spec_file_fail_fast sampleFile badDoc
    (Or.inr (Or.inl ⟨sampleException, by decide, rfl⟩))

/-- C7: every record produced from a declarative unit carries the
declaration file's path as its source and as its manifest_dir, and
zeroed/empty location fields. -/
theorem declarative_annot_fields (file : Str) (specs : Specs)
    (res : List Annot) (h : specFileAnnots file specs = Except.ok res) :
    ∀ a ∈ res, a.source = file ∧ a.manifest_dir = file ∧
      a.anno_line = 0 ∧ a.anno_column = 0 ∧ a.item_line = 0 ∧
      a.item_column = 0 ∧ a.path = [] := by
  cases hc : processEntries (fun s => Spec.toAnnot s file specs.target)
      specs.specs [] with
  | error e =>
    rw [specFileAnnots_error1 hc] at h
    cases h
  | ok acc =>
    cases hc2 : processEntries
        (fun x => Exception.toAnnot x file specs.target)
        specs.exceptions acc with
    | error e =>
      rw [specFileAnnots_error2 hc hc2] at h
      cases h
    | ok acc2 =>
      rw [specFileAnnots_step hc hc2] at h
      intro a ha
      rcases processEntries_mem h a ha with h2 | ⟨t, _, hconv⟩
      · rcases processEntries_mem hc2 a h2 with h1 | ⟨x, _, hconv⟩
        · rcases processEntries_mem hc a h1 with h0 | ⟨s, _, hconv⟩
          · cases h0
          · obtain ⟨_, _, _, hm, hs, _, _, _, h1, h2, h3, h4, h5, _⟩ :=
              spec_toAnnot_ok hconv
            exact ⟨hs, hm, h1, h2, h3, h4, h5⟩
        · obtain ⟨_, _, _, hm, hs, _, _, _, h1, h2, h3, h4, h5, _⟩ :=
            exception_toAnnot_ok hconv
          exact ⟨hs, hm, h1, h2, h3, h4, h5⟩
      · obtain ⟨_, _, _, hm, hs, _, _, _, h1, h2, h3, h4, h5, _⟩ :=
          todo_toAnnot_ok hconv
        exact ⟨hs, hm, h1, h2, h3, h4, h5⟩

/-- Witness for C7: the concrete document sampleSpecs produces exactly
the record sampleAnnot, whose source and manifest_dir are the file path
and whose location fields are zero/empty. -/
theorem declarative_annot_fields_witness :
    sampleAnnot.source = sampleFile ∧
    sampleAnnot.manifest_dir = sampleFile ∧
    sampleAnnot.anno_line = 0 ∧ sampleAnnot.anno_column = 0 ∧
    sampleAnnot.item_line = 0 ∧ sampleAnnot.item_column = 0 ∧
    sampleAnnot.path = [] :=
  declarative_annot_fields sampleFile sampleSpecs [sampleAnnot] rfl
    sampleAnnot (by decide)

/-- The closed-schema check fails whenever a present key is outside the
allowed list, whatever the other keys are. -/
theorem checkFields_err {allowed : List Str} {kvs : List (Str × Toml)}
    {k : Str} {v : Toml} (hm : (k, v) ∈ kvs) (hk : k ∉ allowed) :
    isErr (checkFields allowed kvs) = true := by
  induction kvs with
  | nil => cases hm
  | cons p rest ih =>
    obtain ⟨k2, v2⟩ := p
    unfold checkFields
    by_cases hin : k2 ∈ allowed
    · rw [if_pos hin]
      rcases List.mem_cons.mp hm with heq | hmem
      · injection heq with h1 h2
        subst h1
        exact absurd hin hk
      · exact ih hmem
    · rw [if_neg hin]
      rfl

/-- A citation entry table with an unrecognized key fails to parse. -/
theorem parseSpecEntry_unknown {kvs : List (Str × Toml)} {k : Str}
    {v : Toml} (hm : (k, v) ∈ kvs) (hk : k ∉ specKeys) :
    isErr (parseSpecEntry kvs) = true := by
  have hh := checkFields_err hm hk
  unfold parseSpecEntry
  cases hc : checkFields specKeys kvs with
  | error e => rfl
  | ok u =>
    rw [hc] at hh
    exact Bool.noConfusion hh

/-- An exception entry table with an unrecognized key fails to parse. -/
theorem parseExceptionEntry_unknown {kvs : List (Str × Toml)} {k : Str}
    {v : Toml} (hm : (k, v) ∈ kvs) (hk : k ∉ exceptionKeys) :
    isErr (parseExceptionEntry kvs) = true := by
  have hh := checkFields_err hm hk
  unfold parseExceptionEntry
  cases hc : checkFields exceptionKeys kvs with
  | error e => rfl
  | ok u =>
    rw [hc] at hh
    exact Bool.noConfusion hh

/-- A todo entry table with an unrecognized key fails to parse. -/
theorem parseTodoEntry_unknown {kvs : List (Str × Toml)} {k : Str}
    {v : Toml} (hm : (k, v) ∈ kvs) (hk : k ∉ todoKeys) :
    isErr (parseTodoEntry kvs) = true := by
  have hh := checkFields_err hm hk
  unfold parseTodoEntry
  cases hc : checkFields todoKeys kvs with
  | error e => rfl
  | ok u =>
    rw [hc] at hh
    exact Bool.noConfusion hh

/-- A document table with an unrecognized top-level key fails to
parse. -/
theorem parseSpecs_unknown {kvs : List (Str × Toml)} {k : Str}
    {v : Toml} (hm : (k, v) ∈ kvs) (hk : k ∉ specsDocKeys) :
    isErr (parseSpecs kvs) = true := by
  have hh := checkFields_err hm hk
  unfold parseSpecs
  cases hc : checkFields specsDocKeys kvs with
  | error e => rfl
  | ok u =>
    rw [hc] at hh
    exact Bool.noConfusion hh

/-- C8: parsing a declaration document or any entry of the three kinds
rejects a field name outside the kind's closed schema, regardless of the
other keys present. -/
theorem unknown_field_rejected (kvs : List (Str × Toml)) (k : Str)
    (v : Toml) (hm : (k, v) ∈ kvs) :
    (k ∉ specsDocKeys → isErr (parseSpecs kvs) = true) ∧
    (k ∉ specKeys → isErr (parseSpecEntry kvs) = true) ∧
    (k ∉ exceptionKeys → isErr (parseExceptionEntry kvs) = true) ∧
    (k ∉ todoKeys → isErr (parseTodoEntry kvs) = true) :=
  ⟨fun hk => parseSpecs_unknown hm hk,
   fun hk => parseSpecEntry_unknown hm hk,
   fun hk => parseExceptionEntry_unknown hm hk,
   fun hk => parseTodoEntry_unknown hm hk⟩

/-- Witness for C8: a table whose single key is unrecognized fails to
parse as a document and as each of the three entry kinds. -/
theorem unknown_field_rejected_witness :
    isErr (parseSpecs bogusTable) = true ∧
    isErr (parseSpecEntry bogusTable) = true ∧
    isErr (parseExceptionEntry bogusTable) = true ∧
    isErr (parseTodoEntry bogusTable) = true :=
  have hthm := unknown_field_rejected bogusTable (("bogus").toList)
    (Toml.str [])
    (show ((("bogus").toList : Str), Toml.str []) ∈ bogusTable
      from List.mem_singleton.mpr rfl)
  ⟨hthm.1 (by decide), hthm.2.1 (by decide), hthm.2.2.1 (by decide),
   hthm.2.2.2 (by decide)⟩

/-- Combining with an empty right fragment changes nothing. -/
theorem combine_nil_right (a : Str) : combine a [] = a := by
  unfold combine
  by_cases h : a = []
  · rw [if_pos h, h]
  · rw [if_neg h, if_pos rfl]

/-- One normalization step is the combine of the accumulator with the
trimmed line. -/
theorem normStep_eq_combine (acc l : Str) :
    normStep acc l = combine acc (trim l) := by
  unfold normStep combine
  by_cases hl : trim l = []
  · rw [hl]
    by_cases ha : acc = [] <;> simp [ha]
  · by_cases ha : acc = []
    · subst ha
      simp [hl]
    · rw [if_pos ⟨hl, ha⟩, if_neg ha, if_neg hl]
      simp

/-- Combining fragments is associative. -/
theorem combine_assoc (a b c : Str) :
    combine (combine a b) c = combine a (combine b c) := by
  by_cases hA : a = []
  · simp [combine, hA]
  · by_cases hB : b = []
    · simp [combine, hA, hB]
    · by_cases hC : c = []
      · simp [combine, hA, hB, hC]
      · have hAB : a ++ ' ' :: b ≠ [] := by simp
        have hBC : b ++ ' ' :: c ≠ [] := by simp
        simp only [combine, if_neg hA, if_neg hB, if_neg hC, if_neg hAB,
          if_neg hBC]
        simp

/-- Joining a list headed by a nonempty string is nonempty. -/
theorem joinSpace_ne_nil {p : Str} (ps : List Str) (hp : p ≠ []) :
    joinSpace (p :: ps) ≠ [] := by
  cases ps with
  | nil => exact hp
  | cons q qs =>
    show p ++ ' ' :: joinSpace (q :: qs) ≠ []
    simp

/-- Joining a cons of nonempty strings is a combine. -/
theorem joinSpace_cons_combine {p : Str} {ps : List Str} (hp : p ≠ [])
    (hps : ∀ q ∈ ps, q ≠ []) :
    joinSpace (p :: ps) = combine p (joinSpace ps) := by
  cases ps with
  | nil =>
    show p = combine p []
    rw [combine_nil_right]
  | cons q qs =>
    have hq : q ≠ [] := hps q (List.mem_cons_self q qs)
    have hj := joinSpace_ne_nil qs hq
    show p ++ ' ' :: joinSpace (q :: qs) = combine p (joinSpace (q :: qs))
    unfold combine
    rw [if_neg hp, if_neg hj]

/-- Every string kept by the nonemptiness filter is nonempty. -/
theorem filtered_ne_nil {xs : List Str} :
    ∀ q ∈ xs.filter (fun l => !l.isEmpty), q ≠ [] := by
  intro q hq
  have := List.of_mem_filter hq
  simpa using this

/-- The fold of normalization steps over any line list, from any
accumulator, combines the accumulator with the join of the nonempty
trimmed lines. -/
theorem foldl_normStep (ls : List Str) (acc : Str) :
    ls.foldl normStep acc
      = combine acc (joinSpace ((ls.map trim).filter (fun l => !l.isEmpty))) := by
  induction ls generalizing acc with
  | nil =>
    show acc = combine acc (joinSpace [])
    rw [show joinSpace [] = [] from rfl, combine_nil_right]
  | cons l ls ih =>
    rw [List.foldl_cons, ih, normStep_eq_combine, combine_assoc]
    congr 1
    rw [List.map_cons]
    by_cases hl : trim l = []
    · rw [List.filter_cons_of_neg (by simp [hl])]
      rw [hl]
      simp [combine]
    · rw [List.filter_cons_of_pos (by simpa using hl)]
      exact (joinSpace_cons_combine hl filtered_ne_nil).symm

/-- The fold of src/source.rs agrees with the filter-and-join
description (shared helper for the agreement and idempotence results). -/
theorem norm_eq_spec (s : Str) : normalize_quote s = specNormalize s := by
  unfold normalize_quote specNormalize
  rw [foldl_normStep]
  rw [combine]
  simp

/-- C1: normalize_quote computes exactly the spec's description —
split into lines, trim each, drop lines blank after trimming, and join
the survivors with exactly one space (hence no leading or trailing
space and no contribution from blank lines). -/
theorem normalize_quote_matches_spec (s : Str) :
    normalize_quote s = specNormalize s :=
  norm_eq_spec s

/-- Dropping a prefix of p-characters changes nothing when the head is
not a p-character. -/
theorem dropWhile_eq_self_of_head {p : Char → Bool} {x : Str}
    (h : ∀ c, x.head? = some c → p c = false) : x.dropWhile p = x := by
  cases x with
  | nil => rfl
  | cons c t =>
    have hc := h c rfl
    exact List.dropWhile_cons_of_neg (by simp [hc])

/-- Left-trimming a string whose head is not whitespace changes
nothing. -/
theorem trimLeft_eq_self {s : Str}
    (h : ∀ c, s.head? = some c → ws c = false) : trimLeft s = s :=
  dropWhile_eq_self_of_head h

/-- Right-trimming a string whose last character is not whitespace
changes nothing. -/
theorem trimRight_eq_self {s : Str}
    (h : ∀ c, s.getLast? = some c → ws c = false) : trimRight s = s := by
  have h2 : ∀ c, s.reverse.head? = some c → ws c = false := by
    intro c hc
    rw [List.head?_reverse] at hc
    exact h c hc
  unfold trimRight
  rw [dropWhile_eq_self_of_head h2, List.reverse_reverse]

/-- Trimming a string already clean at both ends changes nothing. -/
theorem trim_eq_self {s : Str}
    (hh : ∀ c, s.head? = some c → ws c = false)
    (hl : ∀ c, s.getLast? = some c → ws c = false) : trim s = s := by
  unfold trim
  rw [trimRight_eq_self hl]
  exact trimLeft_eq_self hh

/-- The first character of a trimmed string is never whitespace. -/
theorem trim_head_not_ws {l : Str} {c : Char}
    (h : (trim l).head? = some c) : ws c = false := by
  have hw := List.head?_dropWhile_not ws (trimRight l)
  unfold trim trimLeft at h
  rw [h] at hw
  exact hw

/-- Left-trimming preserves the last element when the result is
nonempty. -/
theorem getLast?_trimLeft {y : Str} (h : trimLeft y ≠ []) :
    (trimLeft y).getLast? = y.getLast? := by
  unfold trimLeft at h ⊢
  conv_rhs => rw [← List.takeWhile_append_dropWhile (p := ws) (l := y)]
  rw [List.getLast?_append]
  cases hx : (y.dropWhile ws).getLast? with
  | none => exact absurd (List.getLast?_eq_none_iff.mp hx) h
  | some c => rfl

/-- The last character of a trimmed string is never whitespace. -/
theorem trim_getLast_not_ws {l : Str} {c : Char}
    (h : (trim l).getLast? = some c) : ws c = false := by
  have hne : trim l ≠ [] := by
    intro he
    rw [he] at h
    cases h
  unfold trim at h hne
  rw [getLast?_trimLeft hne] at h
  unfold trimRight at h
  rw [List.getLast?_reverse] at h
  have hw := List.head?_dropWhile_not ws l.reverse
  rw [h] at hw
  exact hw

/-- Every character of a trimmed string occurs in the original. -/
theorem mem_trim {c : Char} {l : Str} (h : c ∈ trim l) : c ∈ l := by
  unfold trim trimLeft trimRight at h
  have h1 := List.Sublist.mem h (List.dropWhile_sublist ws)
  have h2 := List.mem_reverse.mp h1
  have h3 := List.Sublist.mem h2 (List.dropWhile_sublist ws)
  exact List.mem_reverse.mp h3

/-- No segment produced by splitting at newlines contains a newline. -/
theorem splitOnNL_no_nl {s : Str} : ∀ p ∈ splitOnNL s, '\n' ∉ p := by
  induction s with
  | nil =>
    intro p hp
    have hp2 := List.mem_singleton.mp hp
    subst hp2
    simp
  | cons c rest ih =>
    intro p hp
    unfold splitOnNL at hp
    cases hsp : splitOnNL rest with
    | nil =>
      rw [hsp] at hp
      have hp2 := List.mem_singleton.mp hp
      subst hp2
      simp
    | cons q qs =>
      rw [hsp] at hp
      change p ∈ if c = '\n' then [] :: q :: qs else (c :: q) :: qs at hp
      by_cases hc : c = '\n'
      · rw [if_pos hc] at hp
        rcases List.mem_cons.mp hp with heq | hp2
        · subst heq
          simp
        · exact ih p (by rw [hsp]; exact hp2)
      · rw [if_neg hc] at hp
        rcases List.mem_cons.mp hp with heq | hp2
        · subst heq
          intro hin
          rcases List.mem_cons.mp hin with heq2 | hin2
          · exact hc heq2.symm
          · exact ih q (by rw [hsp]; exact List.mem_cons_self q qs) hin2
        · exact ih p (by rw [hsp]; exact List.mem_cons_of_mem q hp2)

/-- No line produced by rustLines contains a newline. -/
theorem rustLines_no_nl {s : Str} : ∀ l ∈ rustLines s, '\n' ∉ l := by
  intro l hl
  unfold rustLines at hl
  rcases List.mem_map.mp hl with ⟨p, hp, hps⟩
  have hpm : p ∈ splitOnNL s := by
    by_cases hc : (splitOnNL s).getLast? = some []
    · rw [if_pos hc] at hp
      exact List.Sublist.mem hp (List.dropLast_sublist _)
    · rw [if_neg hc] at hp
      exact hp
  have hnl := splitOnNL_no_nl p hpm
  subst hps
  intro hin
  unfold stripCR at hin
  by_cases hcr : p.getLast? = some '\r'
  · rw [if_pos hcr] at hin
    exact hnl (List.Sublist.mem hin (List.dropLast_sublist p))
  · rw [if_neg hcr] at hin
    exact hnl hin

/-- Splitting a newline-free string yields that single segment. -/
theorem splitOnNL_no_nl_eq {x : Str} (h : '\n' ∉ x) : splitOnNL x = [x] := by
  induction x with
  | nil => rfl
  | cons c t ih =>
    have hc : c ≠ '\n' := fun he => h (he ▸ List.mem_cons_self c t)
    have ht : '\n' ∉ t := fun hm => h (List.mem_cons_of_mem c hm)
    unfold splitOnNL
    rw [ih ht]
    simp [hc]

/-- rustLines of a nonempty newline-free string not ending in a
carriage return is that single line. -/
theorem rustLines_single {x : Str} (hx : x ≠ []) (hnl : '\n' ∉ x)
    (hcr : x.getLast? ≠ some '\r') : rustLines x = [x] := by
  unfold rustLines
  rw [splitOnNL_no_nl_eq hnl]
  rw [if_neg (by simp [hx])]
  show [stripCR x] = [x]
  unfold stripCR
  rw [if_neg hcr]

/-- Every character of a space-join is a space or comes from one of the
joined strings. -/
theorem mem_joinSpace {c : Char} : ∀ {ps : List Str},
    c ∈ joinSpace ps → c = ' ' ∨ ∃ p ∈ ps, c ∈ p := by
  intro ps
  induction ps with
  | nil =>
    intro h
    cases h
  | cons p qs ih =>
    cases qs with
    | nil =>
      intro h
      exact Or.inr ⟨p, List.mem_singleton_self p, h⟩
    | cons q rs =>
      intro h
      rw [show joinSpace (p :: q :: rs) = p ++ ' ' :: joinSpace (q :: rs)
        from rfl] at h
      rcases List.mem_append.mp h with h1 | h2
      · exact Or.inr ⟨p, List.mem_cons_self p (q :: rs), h1⟩
      · rcases List.mem_cons.mp h2 with heq | h3
        · exact Or.inl heq
        · rcases ih h3 with h4 | ⟨r, hr, hcr⟩
          · exact Or.inl h4
          · exact Or.inr ⟨r, List.mem_cons_of_mem p hr, hcr⟩

/-- The head of a space-join headed by a nonempty string is that
string's head. -/
theorem head?_joinSpace {p : Str} (ps : List Str) (hp : p ≠ []) :
    (joinSpace (p :: ps)).head? = p.head? := by
  cases ps with
  | nil => rfl
  | cons q qs =>
    rw [show joinSpace (p :: q :: qs) = p ++ ' ' :: joinSpace (q :: qs)
      from rfl]
    rw [List.head?_append]
    cases hx : p.head? with
    | none => exact absurd (List.head?_eq_none_iff.mp hx) hp
    | some c => rfl

/-- The last character of a space-join of nonempty strings is the last
character of one of them. -/
theorem getLast?_joinSpace {c : Char} : ∀ {ps : List Str},
    (∀ p ∈ ps, p ≠ []) → (joinSpace ps).getLast? = some c →
    ∃ p ∈ ps, p.getLast? = some c := by
  intro ps
  induction ps with
  | nil =>
    intro _ h
    cases h
  | cons p qs ih =>
    intro hne h
    cases qs with
    | nil => exact ⟨p, List.mem_singleton_self p, h⟩
    | cons q rs =>
      have hq : q ≠ [] := hne q (List.mem_cons_of_mem p (List.mem_cons_self q rs))
      have hj := joinSpace_ne_nil rs hq
      rw [show joinSpace (p :: q :: rs) = p ++ ' ' :: joinSpace (q :: rs)
        from rfl] at h
      rw [List.getLast?_append] at h
      have hgl : (' ' :: joinSpace (q :: rs)).getLast?
          = (joinSpace (q :: rs)).getLast? := by
        cases hjq : joinSpace (q :: rs) with
        | nil => exact absurd hjq hj
        | cons b t => exact List.getLast?_cons_cons
      rw [hgl] at h
      cases hx : (joinSpace (q :: rs)).getLast? with
      | none => exact absurd (List.getLast?_eq_none_iff.mp hx) hj
      | some d =>
        rw [hx] at h
        injection h with h
        subst h
        have hne2 : ∀ r ∈ q :: rs, r ≠ [] :=
          fun r hr => hne r (List.mem_cons_of_mem p hr)
        rcases ih hne2 hx with ⟨r, hr, hrl⟩
        exact ⟨r, List.mem_cons_of_mem p hr, hrl⟩

/-- Every kept piece of the normalized output is a nonempty trimmed
line: nonempty, clean at both ends, and newline-free. -/
theorem specNormalize_piece {s : Str} {p : Str}
    (hp : p ∈ ((rustLines s).map trim).filter (fun l => !l.isEmpty)) :
    p ≠ [] ∧ (∀ c, p.head? = some c → ws c = false) ∧
    (∀ c, p.getLast? = some c → ws c = false) ∧ '\n' ∉ p := by
  have hpn : p ≠ [] := filtered_ne_nil p hp
  have hpm : p ∈ (rustLines s).map trim := List.mem_of_mem_filter hp
  rcases List.mem_map.mp hpm with ⟨l, hl, hlp⟩
  subst hlp
  refine ⟨hpn, ?_, ?_, ?_⟩
  · intro c hc
    exact trim_head_not_ws hc
  · intro c hc
    exact trim_getLast_not_ws hc
  · intro hin
    exact rustLines_no_nl l hl (mem_trim hin)

/-- The normalized output contains no newline. -/
theorem specNormalize_no_nl (s : Str) : '\n' ∉ specNormalize s := by
  intro h
  unfold specNormalize at h
  rcases mem_joinSpace h with h1 | ⟨p, hp, hcp⟩
  · exact absurd h1 (by decide)
  · exact (specNormalize_piece hp).2.2.2 hcp

/-- The normalized output never starts with whitespace. -/
theorem specNormalize_head (s : Str) :
    ∀ c, (specNormalize s).head? = some c → ws c = false := by
  intro c hc
  unfold specNormalize at hc
  cases hps : ((rustLines s).map trim).filter (fun l => !l.isEmpty) with
  | nil =>
    rw [hps] at hc
    cases hc
  | cons p qs =>
    rw [hps] at hc
    have hp := specNormalize_piece (s := s) (p := p)
      (by rw [hps]; exact List.mem_cons_self p qs)
    rw [head?_joinSpace qs hp.1] at hc
    exact hp.2.1 c hc

/-- The normalized output never ends with whitespace. -/
theorem specNormalize_getLast (s : Str) :
    ∀ c, (specNormalize s).getLast? = some c → ws c = false := by
  intro c hc
  unfold specNormalize at hc
  rcases getLast?_joinSpace filtered_ne_nil hc with ⟨p, hp, hpl⟩
  exact (specNormalize_piece hp).2.2.1 c hpl

/-- Normalizing an already-normalized string returns it unchanged
(shared helper for the idempotence result). -/
theorem specNormalize_idem (s : Str) :
    specNormalize (specNormalize s) = specNormalize s := by
  by_cases hout : specNormalize s = []
  · rw [hout]
    rfl
  · have hnl := specNormalize_no_nl s
    have hhead := specNormalize_head s
    have hlast := specNormalize_getLast s
    have hcr : (specNormalize s).getLast? ≠ some '\r' := by
      intro h
      exact absurd (hlast '\r' h) (by decide)
    have h1 : rustLines (specNormalize s) = [specNormalize s] :=
      rustLines_single hout hnl hcr
    show joinSpace (((rustLines (specNormalize s)).map trim).filter
      (fun l => !l.isEmpty)) = specNormalize s
    rw [h1]
    show joinSpace ([trim (specNormalize s)].filter (fun l => !l.isEmpty))
      = specNormalize s
    rw [trim_eq_self hhead hlast]
    rw [List.filter_cons_of_pos (by simpa using hout)]
    rfl

/-- C9: quote normalization is idempotent. -/
theorem normalize_quote_idem (s : Str) :
    normalize_quote (normalize_quote s) = normalize_quote s := by
  simp only [norm_eq_spec]
  exact specNormalize_idem s

/-- The first unit test of src/source.rs, replayed on the embedding. -/
theorem rust_test_quote_normalizing :
    normalize_quote (("\n        A\n        B\n        C\n        ").toList)
      = ("A B C").toList := by
  decide

/-- The second unit test of src/source.rs (blank lines and bullets),
replayed on the embedding, together with the spec's blank-line
examples. -/
theorem rust_test_quote_normalizing_with_empty_lines :
    normalize_quote
        (("\n            A:\n\n            * B\n\n            * C\n              D\n        ").toList)
      = ("A: * B * C D").toList ∧
    normalize_quote (("A\n\nB").toList) = ("A B").toList ∧
    normalize_quote (("A\nB").toList) = ("A B").toList ∧
    normalize_quote (("   A  \n  B  ").toList) = ("A B").toList := by
  refine ⟨by decide, by decide, by decide, by decide⟩

end Duvet
